import Mathlib

/-!
Verification development for the Telegram message-extraction pipeline
(`telegram_groups_messages`): the record normalizer
(`TelegramExtractor._process_message`, `_process_message_with_media_types`),
the extraction controller (`TelegramExtractor.extract_messages`,
`connect_client`, `_handle_rate_limit`) and the durable store
(`MessageDatabase.insert_messages`), shallowly embedded in Lean.

Conventions of the embedding:
  - Python `datetime` instants are modelled as integer seconds; a wall-clock
    reading is the seconds-since-1970 value of its digits read as if UTC.
  - Python `dict`/`list` JSON-serializable values are modelled by `JValue`.
  - `sqlite3` tables are modelled as ordered lists of rows; a plain
    `INSERT` fails on a primary-key collision.
  - the Telethon client is modelled as a scripted oracle of fetch results.
-/

namespace Oct7

/-- JSON-serializable Python values (dicts keep insertion order). -/
inductive JValue where
| s (v : String)
| i (v : Int)
| b (v : Bool)
| null
| arr (elems : List JValue)
| obj (fields : List (String × JValue))

/-- Minimal JSON string escaping, matching `json.dumps` on quote and backslash
(control characters do not occur in the values this pipeline builds). -/
def jsonEscape (s : String) : String :=
  s.foldl (fun acc c =>
    acc ++ (if c = '"' then "\\\"" else if c = '\\' then "\\\\" else String.singleton c)) ""

mutual

/-- Embedding of `json.dumps` with its default separators. -/
def jsonDumps : JValue → String
| .s v => "\"" ++ jsonEscape v ++ "\""
| .i v => toString v
| .b v => if v then "true" else "false"
| .null => "null"
| .arr es => "[" ++ jsonDumpsList es ++ "]"
| .obj fs => "\x7b" ++ jsonDumpsFields fs ++ "\x7d"

/-- Comma-separated rendering of a JSON array body. -/
def jsonDumpsList : List JValue → String
| [] => ""
| [x] => jsonDumps x
| x :: y :: xs => jsonDumps x ++ ", " ++ jsonDumpsList (y :: xs)

/-- Comma-separated rendering of a JSON object body. -/
def jsonDumpsFields : List (String × JValue) → String
| [] => ""
| [(k, v)] => "\"" ++ jsonEscape k ++ "\": " ++ jsonDumps v
| (k, v) :: y :: xs => "\"" ++ jsonEscape k ++ "\": " ++ jsonDumps v ++ ", " ++ jsonDumpsFields (y :: xs)

end

/-- Days from 1970-01-01 to the civil date y-m-d (proleptic Gregorian,
Hinnant's `days_from_civil`; `/` on `Int` floors for positive divisors). -/
def daysFromCivil (y m d : Int) : Int :=
  let yy := if m ≤ 2 then y - 1 else y
  let era := yy / 400
  let yoe := yy - era * 400
  let mp := (m + 9) % 12
  let doy := (153 * mp + 2) / 5 + d - 1
  let doe := yoe * 365 + yoe / 4 - yoe / 100 + doy
  era * 146097 + doe - 719468

/-- Civil date (y, m, d) of day number z relative to 1970-01-01
(Hinnant's `civil_from_days`). -/
def civilFromDays (z : Int) : Int × Int × Int :=
  let z' := z + 719468
  let era := z' / 146097
  let doe := z' - era * 146097
  let yoe := (doe - doe / 1460 + doe / 36524 - doe / 146096) / 365
  let y := yoe + era * 400
  let doy := doe - (365 * yoe + yoe / 4 - yoe / 100)
  let mp := (5 * doy + 2) / 153
  let d := doy - (153 * mp + 2) / 5 + 1
  let m := mp + (if mp < 10 then 3 else -9)
  (y + (if m ≤ 2 then 1 else 0), m, d)

/-- Day number containing the instant/wall value ts (floor division). -/
def epochDay (ts : Int) : Int := ts / 86400

/-- Second within the day of ts (always in 0..86399). -/
def secondOfDay (ts : Int) : Int := ts % 86400

/-- Python `datetime.weekday()` of day number z: Monday = 0 .. Sunday = 6
(1970-01-01 was a Thursday, hence the +3). -/
def pyWeekday (z : Int) : Int := (z + 3) % 7

/-- Weekday of day number z with Sunday = 0 (the `tm_wday` convention). -/
def weekdaySun0 (z : Int) : Int := (z + 4) % 7

/-- Zero-based day-of-year of day number z. -/
def dayOfYear0 (z : Int) : Int :=
  z - daysFromCivil (civilFromDays z).1 1 1

/-- Two-digit zero-padded decimal rendering. -/
def pad2 (n : Nat) : String :=
  if n < 10 then "0" ++ toString n else toString n

/-- Rendering of a UTC offset as in `strftime("%z")`, e.g. "+0300". -/
def fmtOffset (off : Int) : String :=
  let sign := if off < 0 then "-" else "+"
  let a := off.natAbs
  sign ++ pad2 (a / 3600) ++ pad2 (a % 3600 / 60)

/-- Embedding of `strftime("%Y-%m-%d %H:%M:%S%z")` applied to an aware
datetime whose wall-clock seconds value is wall and whose offset is off. -/
def fmtDateTime (wall off : Int) : String :=
  let z := epochDay wall
  let c := civilFromDays z
  let sod := (secondOfDay wall).toNat
  toString c.1 ++ "-" ++ pad2 c.2.1.toNat ++ "-" ++ pad2 c.2.2.toNat ++ " " ++
    pad2 (sod / 3600) ++ ":" ++ pad2 (sod % 3600 / 60) ++ ":" ++ pad2 (sod % 60) ++
    fmtOffset off

/-- Day number of the last Sunday of October of year y (the day Israel DST
ends under the tzdata rule in force since 2013, as shipped with pytz). -/
def lastSundayOfOctober (y : Int) : Int :=
  let z := daysFromCivil y 10 31
  z - weekdaySun0 z

/-- Day number of the Friday before the last Sunday of March of year y (the
day Israel DST starts under the tzdata rule in force since 2013). -/
def idtStartDay (y : Int) : Int :=
  let z := daysFromCivil y 3 31
  (z - weekdaySun0 z) - 2

/-- UTC instant at which Israel DST starts in year y: 02:00 IST (UTC+2). -/
def idtStartUtc (y : Int) : Int := idtStartDay y * 86400 + 2 * 3600 - 7200

/-- UTC instant at which Israel DST ends in year y: 02:00 IDT (UTC+3). -/
def idtEndUtc (y : Int) : Int := lastSundayOfOctober y * 86400 + 2 * 3600 - 10800

/-- UTC offset (seconds) of Asia/Jerusalem at a UTC instant, as applied by
`astimezone(pytz.timezone("Asia/Jerusalem"))`: IDT (+3h) between the DST
boundary instants, IST (+2h) otherwise. -/
def jerusalemOffsetAtUtc (ts : Int) : Int :=
  let y := (civilFromDays (epochDay ts)).1
  if idtStartUtc y ≤ ts ∧ ts < idtEndUtc y then 10800 else 7200

/-- UTC offset (seconds) chosen by
`pytz.timezone("Asia/Jerusalem").localize(naive)` (is_dst defaulting to
False) for a naive wall-clock reading: DST wall times run from 03:00 on the
start Friday up to (not including) 01:00 on the end Sunday — the ambiguous
and the non-existent hour both resolve to standard time. -/
def jerusalemOffsetAtWall (wall : Int) : Int :=
  let y := (civilFromDays (epochDay wall)).1
  let dstFrom := idtStartDay y * 86400 + 3 * 3600
  let dstTo := lastSundayOfOctober y * 86400 + 1 * 3600
  if dstFrom ≤ wall ∧ wall < dstTo then 10800 else 7200

/-- Python aware-or-naive datetime: the wall-clock digits (as seconds since
1970-01-01 00:00 read in that wall clock) plus the tzinfo UTC offset,
`none` for a naive value. -/
structure PyDateTime where
  wall : Int
  utcoffset : Option Int

/-- Embedding of lines 354-363 of `extract_messages`: a naive bound is
localized to Asia/Jerusalem (never silently treated as UTC), an aware bound
keeps its own offset; either way the result is the UTC instant produced by
`astimezone(pytz.utc)`. -/
def toUtcInstant (d : PyDateTime) : Int :=
  match d.utcoffset with
  | some off => d.wall - off
  | none => d.wall - jerusalemOffsetAtWall d.wall

/-- Convenience: the UTC timestamp of a civil date and time of day. -/
def mkUtcTs (y m d hh mm ss : Int) : Int :=
  daysFromCivil y m d * 86400 + hh * 3600 + mm * 60 + ss

/-- Embedding of `strftime("%Y-%m-%d %H:%M:%S")` (no offset suffix). -/
def fmtDateTimeNoTz (wall : Int) : String :=
  let z := epochDay wall
  let c := civilFromDays z
  let sod := (secondOfDay wall).toNat
  toString c.1 ++ "-" ++ pad2 c.2.1.toNat ++ "-" ++ pad2 c.2.2.toNat ++ " " ++
    pad2 (sod / 3600) ++ ":" ++ pad2 (sod % 3600 / 60) ++ ":" ++ pad2 (sod % 60)

/-- Embedding of `strftime("%U")`: week of the year with Sunday as the first
day of the week, computed as (tm_yday + 7 - tm_wday) / 7 with a 0-based day
of year and a Sunday-based weekday — a fixed arithmetic rule with no locale
input. -/
def weekU (yday wday : Nat) : Nat := (yday + 7 - wday) / 7

/-- Week-of-year field derived from the local wall-clock value, as
`int(local_date.strftime("%U"))`. -/
def weekOfYearOfWall (wall : Int) : Int :=
  let z := epochDay wall
  Int.ofNat (weekU (dayOfYear0 z).toNat (weekdaySun0 z).toNat)

/-- Embedding of Python `len(text.split())`: maximal whitespace-free runs. -/
def wordCount (s : String) : Nat :=
  ((s.split (fun c => c.isWhitespace)).filter (fun w => w ≠ "")).length

/-- Telethon `Document` as read by the normalizer; `filename` is the
`DocumentAttributeFilename` among its attributes, when one exists. -/
structure TLDocument where
  id : Int
  mime_type : Option String
  size : Option Int
  filename : Option String

/-- Telethon `Photo` as read by the normalizer. -/
structure TLPhoto where
  id : Int
  w : Option Int
  h : Option Int

/-- Poll question or answer text, possibly wrapped in `TextWithEntities`
(whose `.text` holds the plain string). -/
inductive TLText where
| plain (s : String)
| withEntities (s : String)

/-- Embedding of the unwrap step: take `.text` when the wrapper has it. -/
def TLText.unwrap : TLText → String
| .plain s => s
| .withEntities s => s

/-- One poll answer; `optionHex` is `answer.option.hex()`. -/
structure TLPollAnswer where
  text : TLText
  optionHex : String

/-- Telethon `Poll` payload. -/
structure TLPoll where
  question : TLText
  multiple_choice : Bool
  quiz : Bool
  answers : List TLPollAnswer

/-- Telethon webpage payload: either the placeholder `WebPageEmpty` (its
`str(...)` rendering kept) or a real `WebPage` with its optional fields. -/
inductive TLWebPage where
| empty (rendered : String)
| full (url site_name title description author embed_url embed_type : Option String)
    (photo_id document_id : Option Int)

/-- The `message.media` payload: one of the four recognized Telethon media
classes (each with the optional inner object its guard tests, plus its
`str(...)` rendering) or any other media class, carried by name. -/
inductive RawMedia where
| document (doc : Option TLDocument) (rendered : String)
| photo (ph : Option TLPhoto) (rendered : String)
| poll (p : Option TLPoll) (rendered : String)
| webpage (wp : Option TLWebPage) (rendered : String)
| other (typeName : String) (rendered : String)

/-- Python `type(message.media).__name__`. -/
def RawMedia.pyTypeName : RawMedia → String
| .document _ _ => "MessageMediaDocument"
| .photo _ _ => "MessageMediaPhoto"
| .poll _ _ => "MessageMediaPoll"
| .webpage _ _ => "MessageMediaWebPage"
| .other n _ => n

/-- Python `str(message.media)`. -/
def RawMedia.strForm : RawMedia → String
| .document _ r => r
| .photo _ r => r
| .poll _ r => r
| .webpage _ r => r
| .other _ r => r

/-- Storing a possibly-None Python string in a JSON-bound dict. -/
def optStr : Option String → JValue
| none => .null
| some s => .s s

/-- Storing a possibly-None Python integer in a JSON-bound dict. -/
def optInt : Option Int → JValue
| none => .null
| some i => .i i

/-- Attributes extracted for a document (lines 247-262). -/
def docAttrs (d : TLDocument) : List (String × JValue) :=
  [("document_id", .i d.id), ("mime_type", optStr d.mime_type), ("size", optInt d.size)]
    ++ (match d.filename with | some f => [("filename", JValue.s f)] | none => [])

/-- Attributes extracted for a photo (lines 264-268). -/
def photoAttrs (p : TLPhoto) : List (String × JValue) :=
  [("photo_id", .i p.id), ("width", optInt p.w), ("height", optInt p.h)]

/-- Attributes extracted for a poll (lines 270-295). -/
def pollAttrs (p : TLPoll) : List (String × JValue) :=
  [("question", .s p.question.unwrap),
   ("multiple_choice", .b p.multiple_choice),
   ("quiz", .b p.quiz),
   ("answers", .arr (p.answers.map (fun a =>
     JValue.obj [("text", .s a.text.unwrap), ("option", .s a.optionHex)])))]

/-- Embedding of `_process_message_with_media_types` (lines 224-327). The
document/photo tests form one `if/elif` chain; the poll test then opens a
second, separate `if/elif/else` chain, so the second chain's `else` arm also
runs when the media already matched document or photo, overwriting
`media_type` with the Python class name and appending a `raw_object` entry
to the attribute dict built by the first chain. -/
def processMessageWithMediaTypes (media : Option RawMedia) :
    Option String × List (String × JValue) :=
  match media with
  | none => (none, [])
  | some m =>
    let firstChain : Option String × List (String × JValue) :=
      match m with
      | .document (some d) _ => (some "document", docAttrs d)
      | .photo (some p) _ => (some "photo", photoAttrs p)
      | _ => (none, [])
    match m with
    | .poll (some p) _ => (some "poll", firstChain.2 ++ pollAttrs p)
    | .webpage (some wp) _ =>
      match wp with
      | .empty r => (some "webpage", firstChain.2 ++ [("raw_object", JValue.s r)])
      | .full url site_name title description author embed_url embed_type pid did =>
        (some "webpage", firstChain.2 ++
          [("url", optStr url), ("site_name", optStr site_name),
           ("title", optStr title), ("description", optStr description),
           ("author", optStr author), ("embed_url", optStr embed_url),
           ("embed_type", optStr embed_type)]
          ++ (match pid with | some i => [("photo_id", JValue.i i)] | none => [])
          ++ (match did with | some i => [("document_id", JValue.i i)] | none => []))
    | _ => (some m.pyTypeName, firstChain.2 ++ [("raw_object", JValue.s m.strForm)])

/-- One message entity span. `typeStr` is `str(e.type)` when the entity has
a `type` attribute, else the entity's class name. -/
structure TLEntity where
  typeStr : String
  offset : Int
  length : Int

/-- One reaction payload: a plain `ReactionEmoji` or any other class,
carried by its `str(...)` rendering. -/
inductive TLReaction where
| emoji (emoticon : String)
| custom (rendered : String)

/-- One entry of `message.reactions.results`. -/
structure TLReactionResult where
  reaction : TLReaction
  count : Int

/-- Forward header (`message.fwd_from`). `from_id` is carried already
rendered through `str(...)` and is `none` when the raw field was falsy. -/
structure TLFwdFrom where
  from_id : Option String
  channel_id : Option Int
  channel_post : Option Int
  post_author : Option String
  date : Option Int

/-- One raw Telethon message as the normalizer reads it. `date` is the UTC
instant of `message.date` (Telethon dates are UTC); optional fields are
`none` when the Python attribute is `None` (for `entities` and `reactions`,
`none` also covers a missing attribute, and an empty Python list is
`some []`). -/
structure RawMessage where
  id : Int
  date : Int
  message : Option String
  sender_id : Option Int
  reply_to_msg_id : Option Int
  fwd_from : Option TLFwdFrom
  forwards : Option Int
  media : Option RawMedia
  entities : Option (List TLEntity)
  views : Option Int
  reactions : Option (List TLReactionResult)

/-- The `MessageData` dataclass (messages_database.py lines 9-62), with the
structured attributes still in structured (pre-serialization) form. -/
structure MessageData where
  group_name : String
  message_id : Int
  utc_date : String
  local_date : String
  text : String
  sender_id : Option Int
  reply_to_msg_id : Option Int
  forwarded_from : Option (List (String × JValue))
  forward_count : Option Int
  media_type : Option String
  media_attributes : Option (List (String × JValue))
  entities : Option (List JValue)
  views : Option Int
  reactions : Option (List JValue)
  hour : Int
  day_of_week : Int
  month : Int
  week_of_year : Int
  word_count : Int
  emoji_count : Int

/-- Embedding of `_process_message` (lines 103-222). The external emoji
library's `len(emoji.emoji_list(text))` is supplied as the parameter
`emojiCnt`; everything else follows the source line by line. -/
def processMessage (emojiCnt : String → Nat) (msg : RawMessage)
    (group_name : String) : MessageData :=
  let utcTs := msg.date
  let off := jerusalemOffsetAtUtc utcTs
  let localWall := utcTs + off
  let text := msg.message.getD ""
  let forward_info : Option (List (String × JValue)) :=
    match msg.fwd_from with
    | none => none
    | some f => some
      [("forwarded_from_id", optStr f.from_id),
       ("forwarded_channel_id", optInt f.channel_id),
       ("forwarded_channel_post", optInt f.channel_post),
       ("forwarded_post_author", optStr f.post_author),
       ("forwarded_date",
         match f.date with | some d => JValue.s (fmtDateTimeNoTz d) | none => JValue.null)]
  let md := processMessageWithMediaTypes msg.media
  let reactionList : Option (List JValue) :=
    match msg.reactions with
    | none => none
    | some rs => some (rs.map (fun r =>
        match r.reaction with
        | .emoji em => JValue.obj [("emoji", .s em), ("count", .i r.count)]
        | .custom str => JValue.obj [("emoji", .s str), ("count", .i r.count)]))
  { group_name := group_name
    message_id := msg.id
    utc_date := fmtDateTime utcTs 0
    local_date := fmtDateTime localWall off
    text := text
    sender_id := msg.sender_id
    reply_to_msg_id := msg.reply_to_msg_id
    forwarded_from := forward_info
    forward_count := msg.forwards
    media_type := md.1
    media_attributes := some md.2
    entities :=
      match msg.entities with
      | some (e :: es) => some ((e :: es).map (fun en => JValue.obj
          [("type", .s en.typeStr), ("offset", .i en.offset), ("length", .i en.length)]))
      | _ => none
    views := msg.views
    reactions := reactionList
    hour := secondOfDay localWall / 3600
    day_of_week := pyWeekday (epochDay localWall)
    month := (civilFromDays (epochDay localWall)).2.1
    week_of_year := weekOfYearOfWall localWall
    word_count := if text = "" then 0 else Int.ofNat (wordCount text)
    emoji_count := if text = "" then 0 else Int.ofNat (emojiCnt text) }

/-- One stored table row: the 20 SQL parameters bound by `insert_messages`,
with `none` standing for SQL NULL. -/
structure Row where
  group_name : String
  message_id : Int
  utc_date : String
  local_date : String
  text : String
  sender_id : Option Int
  reply_to_msg_id : Option Int
  forward_count : Option Int
  media_type : Option String
  media_attributes : Option String
  forwarded_from : Option String
  entities : Option String
  views : Option Int
  reactions : Option String
  hour : Int
  day_of_week : Int
  month : Int
  week_of_year : Int
  word_count : Int
  emoji_count : Int
deriving DecidableEq

/-- Embedding of `json.dumps(v) if v else None` for an optional dict value:
Python truthiness sends both `None` and the empty dict to `None` (NULL). -/
def dictParam (v : Option (List (String × JValue))) : Option String :=
  match v with
  | some (kv :: kvs) => some (jsonDumps (.obj (kv :: kvs)))
  | _ => none

/-- Embedding of `json.dumps(v) if v else None` for an optional list value:
Python truthiness sends both `None` and the empty list to `None` (NULL). -/
def listParam (v : Option (List JValue)) : Option String :=
  match v with
  | some (x :: xs) => some (jsonDumps (.arr (x :: xs)))
  | _ => none

/-- The parameter tuple `insert_messages` binds for one message
(messages_database.py lines 166-196). -/
def rowParams (m : MessageData) : Row :=
  { group_name := m.group_name
    message_id := m.message_id
    utc_date := m.utc_date
    local_date := m.local_date
    text := m.text
    sender_id := m.sender_id
    reply_to_msg_id := m.reply_to_msg_id
    forward_count := m.forward_count
    media_type := m.media_type
    media_attributes := dictParam m.media_attributes
    forwarded_from := dictParam m.forwarded_from
    entities := listParam m.entities
    views := m.views
    reactions := listParam m.reactions
    hour := m.hour
    day_of_week := m.day_of_week
    month := m.month
    week_of_year := m.week_of_year
    word_count := m.word_count
    emoji_count := m.emoji_count }

/-- Rows of one SQLite table, in insertion order. -/
abbrev Table := List Row

/-- Collision test against the composite primary key (group_name, message_id)
declared by `create_table`. -/
def keyClash (r : Row) (t : Table) : Bool :=
  t.any (fun q => q.group_name = r.group_name && q.message_id = r.message_id)

/-- One plain SQLite INSERT: the statement in `insert_messages` carries no
ON CONFLICT clause, so a composite-key collision raises `IntegrityError`,
modelled as `Except.error`. -/
def sqliteInsert (t : Table) (r : Row) : Except String Table :=
  if keyClash r t then .error "UNIQUE constraint failed" else .ok (t ++ [r])

/-- Embedding of `cursor.executemany`: rows are inserted one at a time and
the first failure aborts the statement, propagating the error. -/
def executemanyInsert (t : Table) : List Row → Except String Table
| [] => .ok t
| r :: rest =>
  match sqliteInsert t r with
  | .error e => .error e
  | .ok t' => executemanyInsert t' rest

/-- Accumulator pass for fixed-size chunking: `cur` is the chunk being
filled, emitted as soon as it reaches size n. -/
def chunksGo (n : Nat) : List α → List α → List (List α)
| [], cur => if cur.isEmpty then [] else [cur]
| x :: xs, cur =>
  if n ≤ cur.length + 1 then (cur ++ [x]) :: chunksGo n xs []
  else chunksGo n xs (cur ++ [x])

/-- Fixed-size chunking of a list, embedding the slice loop
`for i in range(0, len(messages), batch_size)` (for a positive batch size). -/
def chunks (n : Nat) (l : List α) : List (List α) := chunksGo n l []

/-- Sequential insertion of the chunks, each via `executemany`; an error in
any chunk propagates (later chunks are not attempted). -/
def insertChunks (t : Table) : List (List Row) → Except String Table
| [] => .ok t
| c :: rest =>
  match executemanyInsert t c with
  | .error e => .error e
  | .ok t' => insertChunks t' rest

/-- Embedding of `MessageDatabase.insert_messages` (lines 130-198): bind the
parameter tuple of every message, insert in `batch_size` chunks with a plain
INSERT, and let any `IntegrityError` propagate to the caller. -/
def insertMessages (msgs : List MessageData) (batchSize : Nat) (t : Table) :
    Except String Table :=
  insertChunks t (chunks batchSize (msgs.map rowParams))

/-- One scripted response of the remote client to one history request:
a page of raw messages (newest first), a `FloodWaitError` carrying its
mandatory wait, or any other exception. -/
inductive FetchResult where
| pages (msgs : List RawMessage)
| flood (seconds : Nat)
| fatal (err : String)

/-- Whether a scripted response is a non-rate-limit exception. -/
def FetchResult.isFatal : FetchResult → Bool
| .fatal _ => true
| _ => false

/-- Observable events of one extraction run: each history request with the
cursor it carries, each fetched page, each rate-limit suspension with its
signalled duration, and each fixed inter-request delay. -/
inductive Event where
| request (offsetId : Int)
| gotPage (msgs : List RawMessage)
| sleepRateLimit (seconds : Nat)
| sleepDelay

/-- Outcome of the pagination loop: a normal `break` with the accumulated
messages, an exception leaving the loop (caught further out), or the
modelling artifact of running out of scripted responses. -/
inductive LoopOutcome where
| finished (msgs : List MessageData) (db : Table) (log : List Event)
| failed (db : Table) (log : List Event) (err : String)
| scriptEnded (msgs : List MessageData) (db : Table) (log : List Event)

/-- The in-window test of lines 401-405: both bounds inclusive, compared as
UTC instants. -/
def inWindow (startUtc endUtc : Int) (m : RawMessage) : Bool :=
  decide (startUtc ≤ m.date) && decide (m.date ≤ endUtc)

/-- The normalized records one fetched page contributes: its in-window
messages, each through `_process_message` (lines 401-410). -/
def pageProcessed (emojiCnt : String → Nat) (group : String) (startUtc endUtc : Int)
    (pg : List RawMessage) : List MessageData :=
  (pg.filter (inWindow startUtc endUtc)).map (fun m => processMessage emojiCnt m group)

/-- The store hand-off of lines 408-413: the batch insert is attempted only
when the page contributed at least one in-window record (`if valid_msgs:`). -/
def insertIfAny (emojiCnt : String → Nat) (group : String) (startUtc endUtc : Int)
    (pg : List RawMessage) (db : Table) : Except String Table :=
  let processed := pageProcessed emojiCnt group startUtc endUtc pg
  if processed.isEmpty then Except.ok db else insertMessages processed 1000 db

/-- Embedding of the `while True` pagination loop of `extract_messages`
(lines 376-426), consuming one scripted response per issued request:
 - `FloodWaitError` → `_handle_rate_limit` sleeps exactly the signalled
   seconds and `continue` re-issues the request with the same `offset_id`;
 - any other exception leaves the loop as `failed`;
 - an empty page breaks out of the loop;
 - otherwise the page is filtered by the inclusive UTC window, the kept
   messages are normalized and (when any) batch-inserted, the loop breaks
   if the oldest (last) message of the page is strictly older than the
   start bound, and otherwise advances the cursor to that message's id and
   sleeps the fixed inter-request delay. -/
def extractLoop (emojiCnt : String → Nat) (group : String) (startUtc endUtc : Int)
    (offsetId : Int) (acc : List MessageData) (db : Table) (log : List Event) :
    List FetchResult → LoopOutcome
| [] => .scriptEnded acc db (log ++ [.request offsetId])
| r :: rest =>
  let log1 := log ++ [.request offsetId]
  match r with
  | .flood s =>
    extractLoop emojiCnt group startUtc endUtc offsetId acc db
      (log1 ++ [.sleepRateLimit s]) rest
  | .fatal e => .failed db log1 e
  | .pages [] => .finished acc db log1
  | .pages (m0 :: ms) =>
    let msgs := m0 :: ms
    let log2 := log1 ++ [.gotPage msgs]
    let acc' := acc ++ pageProcessed emojiCnt group startUtc endUtc msgs
    let lastMsg := msgs.getLast (List.cons_ne_nil m0 ms)
    match insertIfAny emojiCnt group startUtc endUtc msgs db with
    | .error e => .failed db log2 e
    | .ok db' =>
      if lastMsg.date < startUtc then .finished acc' db' log2
      else
        extractLoop emojiCnt group startUtc endUtc lastMsg.id acc' db'
          (log2 ++ [.sleepDelay]) rest

/-- The remote client and session as one scripted oracle: whether
`connect_client` authorizes, whether `get_entity` resolves the source, and
the successive results of the history requests. -/
structure Client where
  connectOk : Bool
  resolveOk : Bool
  responses : List FetchResult

/-- Result of one `extract_messages` call: an exception escaping the
function, or the returned list plus the table state and the event log
(`scriptEnded` marks exhaustion of the scripted responses, a modelling
artifact — the real client always answers). -/
inductive ExtractResult where
| raised (err : String)
| returned (msgs : List MessageData) (db : Table) (log : List Event)
| scriptEnded

/-- Embedding of `extract_messages` (lines 329-434) together with
`connect_client` (lines 67-90): the two bounds are unified to UTC (naive
values localized to Asia/Jerusalem first, lines 354-363); the client is
connected OUTSIDE the try block, so a failed authorization raises
`Exception("Authentication failed")` out of the function; inside the try
block `get_entity` and the pagination loop run, and any non-FloodWait
exception there is caught, logged, and turned into an empty returned
list. -/
def extractMessages (emojiCnt : String → Nat) (client : Client) (group : String)
    (startDate endDate : PyDateTime) (db : Table) : ExtractResult :=
  if client.connectOk then
    if client.resolveOk then
      match extractLoop emojiCnt group (toUtcInstant startDate) (toUtcInstant endDate)
          0 [] db [] client.responses with
      | .finished msgs db' log => .returned msgs db' log
      | .failed db' log _ => .returned [] db' log
      | .scriptEnded _ _ _ => .scriptEnded
    else .returned [] db []
  else .raised "Authentication failed"

/-- Concrete document carried by the dispatch counterexample. -/
def sampleDoc : TLDocument :=
  { id := 77, mime_type := some "video/mp4", size := some 1024, filename := some "clip.mp4" }

/-- Document media payload (its `str(...)` rendering abbreviated). -/
def sampleDocMedia : RawMedia := .document (some sampleDoc) "MessageMediaDocument(id=77)"

/-- Concrete photo carried by the dispatch counterexample. -/
def samplePhoto : TLPhoto := { id := 5, w := some 640, h := some 480 }

/-- Photo media payload. -/
def samplePhotoMedia : RawMedia := .photo (some samplePhoto) "MessageMediaPhoto(id=5)"

/-- Concrete raw message timestamped 2023-10-07 06:30:00 UTC, with no
optional payloads. -/
def sampleMsg : RawMessage :=
  { id := 10, date := mkUtcTs 2023 10 7 6 30 0, message := some "hi", sender_id := none,
    reply_to_msg_id := none, fwd_from := none, forwards := none, media := none,
    entities := none, views := none, reactions := none }

/-- Concrete raw message older than the sample window start. -/
def sampleOldMsg : RawMessage :=
  { id := 3, date := mkUtcTs 2023 10 1 0 0 0, message := none, sender_id := none,
    reply_to_msg_id := none, fwd_from := none, forwards := none, media := none,
    entities := none, views := none, reactions := none }

/-- A zero emoji counter standing in for the external emoji library in
concrete instantiations. -/
def E0 : String → Nat := fun _ => 0

/-- The sample message, normalized. -/
def sampleMd : MessageData := processMessage E0 sampleMsg "g"

/-- The sample record with its media-attributes map really empty. -/
def mdEmptyAttrs : MessageData := { sampleMd with media_attributes := some [] }

/-- The sample record with its media-attributes attribute absent (None). -/
def mdAbsentAttrs : MessageData := { sampleMd with media_attributes := none }

/-- Naive start bound 2023-10-06 00:00 (no tzinfo). -/
def startNaive : PyDateTime := { wall := mkUtcTs 2023 10 6 0 0 0, utcoffset := none }

/-- Naive end bound 2023-10-08 00:00 (no tzinfo). -/
def endNaive : PyDateTime := { wall := mkUtcTs 2023 10 8 0 0 0, utcoffset := none }

/-- Client whose authorization check fails. -/
def noAuthClient : Client := { connectOk := false, resolveOk := true, responses := [] }

/-- Client that authorizes but cannot resolve the source. -/
def badSourceClient : Client := { connectOk := true, resolveOk := false, responses := [] }

/-- Healthy client serving one page with the sample message, then an empty
page. -/
def okClient : Client :=
  { connectOk := true, resolveOk := true
    responses := [.pages [sampleMsg], .pages []] }

/-- Specification-side definition for the week-numbering refinement claim:
the Sunday-start convention in words — all days of the year strictly before
the first Sunday belong to week 0, and each later week starts on a Sunday,
counted from 1. -/
def weekUSundaySpec (jan1w yday : Nat) : Nat :=
  let firstSunday := (7 - jan1w) % 7
  if yday < firstSunday then 0 else (yday - firstSunday) / 7 + 1

/-- Pairwise distinctness of the composite primary key across a table. -/
def keysOk (t : Table) : Prop :=
  t.Pairwise (fun a b => a.group_name ≠ b.group_name ∨ a.message_id ≠ b.message_id)

/-- Appending anything to a non-empty string stays non-empty. -/
theorem append_ne_empty_left (a b : String) (ha : a ≠ "") : a ++ b ≠ "" := by
  intro h
  have hd := congrArg String.data h
  rw [String.data_append] at hd
  rcases List.append_eq_nil.mp hd with ⟨h1, _⟩
  exact ha (by cases a; simp_all)

/-- A serialized JSON object is never the empty string. -/
theorem jsonDumps_obj_ne_empty (l : List (String × JValue)) :
    jsonDumps (.obj l) ≠ "" := by
  rw [jsonDumps]
  apply append_ne_empty_left
  apply append_ne_empty_left
  decide

/-- A serialized JSON array is never the empty string. -/
theorem jsonDumps_arr_ne_empty (l : List JValue) : jsonDumps (.arr l) ≠ "" := by
  rw [jsonDumps]
  apply append_ne_empty_left
  apply append_ne_empty_left
  decide

/-- Both absent (None) and empty structured dict values serialize to NULL. -/
theorem dictParam_eq_none (v : Option (List (String × JValue))) :
    dictParam v = none ↔ v = none ∨ v = some [] := by
  cases v with
  | none => simp [dictParam]
  | some l => cases l <;> simp [dictParam]

/-- Both absent (None) and empty structured list values serialize to NULL. -/
theorem listParam_eq_none (v : Option (List JValue)) :
    listParam v = none ↔ v = none ∨ v = some [] := by
  cases v with
  | none => simp [listParam]
  | some l => cases l <;> simp [listParam]

/-- A serialized structured dict value is never the empty string. -/
theorem dictParam_ne_empty (v : Option (List (String × JValue))) (s : String)
    (h : dictParam v = some s) : s ≠ "" := by
  cases v with
  | none => simp [dictParam] at h
  | some l =>
    cases l with
    | nil => simp [dictParam] at h
    | cons kv kvs =>
      simp [dictParam] at h
      exact h ▸ jsonDumps_obj_ne_empty (kv :: kvs)

/-- A serialized structured list value is never the empty string. -/
theorem listParam_ne_empty (v : Option (List JValue)) (s : String)
    (h : listParam v = some s) : s ≠ "" := by
  cases v with
  | none => simp [listParam] at h
  | some l =>
    cases l with
    | nil => simp [listParam] at h
    | cons x xs =>
      simp [listParam] at h
      exact h ▸ jsonDumps_arr_ne_empty (x :: xs)

/-- C2 (code bug): for a document payload the media dispatch does NOT
return media_kind "document": the poll test at line 270 opens a new `if`
chain instead of continuing with `elif`, so its `else` arm runs after the
document (and photo) arm already matched, overwriting `media_type` with the
Python class name and appending a spurious `raw_object` attribute. The
document and photo attribute sets themselves are extracted as specified. -/
theorem media_dispatch_document_overwritten :
    processMessageWithMediaTypes (some sampleDocMedia) =
      (some "MessageMediaDocument",
        [("document_id", .i 77), ("mime_type", .s "video/mp4"), ("size", .i 1024),
         ("filename", .s "clip.mp4"), ("raw_object", .s "MessageMediaDocument(id=77)")])
  ∧ processMessageWithMediaTypes (some samplePhotoMedia) =
      (some "MessageMediaPhoto",
        [("photo_id", .i 5), ("width", .i 640), ("height", .i 480),
         ("raw_object", .s "MessageMediaPhoto(id=5)")])
  ∧ (processMessageWithMediaTypes (some sampleDocMedia)).1 ≠ some "document"
  ∧ (processMessageWithMediaTypes (some samplePhotoMedia)).1 ≠ some "photo" := by
  refine ⟨rfl, rfl, ?_, ?_⟩ <;> decide

/-- C6: a rate-limit signal suspends for exactly the signalled number of
seconds and re-issues the page request with the identical cursor: consuming
a `FloodWaitError` response leaves the cursor, the accumulated messages and
the table untouched, appending only the request and the suspension to the
event log — so the retry can neither duplicate nor skip messages. -/
theorem rate_limit_replay (emojiCnt : String → Nat) (group : String)
    (startUtc endUtc offsetId : Int) (acc : List MessageData) (db : Table)
    (log : List Event) (s : Nat) (rest : List FetchResult) :
    extractLoop emojiCnt group startUtc endUtc offsetId acc db log (.flood s :: rest) =
      extractLoop emojiCnt group startUtc endUtc offsetId acc db
        (log ++ [.request offsetId, .sleepRateLimit s]) rest := by
  simp [extractLoop]

set_option maxRecDepth 10000 in
set_option maxHeartbeats 2000000 in
/-- C8: a message with literal UTC timestamp 2023-10-07 06:30:00+0000
normalizes (whatever its other payload fields) to local timestamp
2023-10-07 09:30:00+0300 in Asia/Jerusalem, hour 9, Python weekday 5
(Saturday) and month 10, all derived from the local timestamp. -/
theorem derived_fields_oct7 (emojiCnt : String → Nat) (msg : RawMessage)
    (g : String) (hd : msg.date = mkUtcTs 2023 10 7 6 30 0) :
    (processMessage emojiCnt msg g).local_date = "2023-10-07 09:30:00+0300"
  ∧ (processMessage emojiCnt msg g).hour = 9
  ∧ (processMessage emojiCnt msg g).day_of_week = 5
  ∧ (processMessage emojiCnt msg g).month = 10 := by
  have h1 : (processMessage emojiCnt msg g).local_date =
      fmtDateTime (msg.date + jerusalemOffsetAtUtc msg.date)
        (jerusalemOffsetAtUtc msg.date) := rfl
  have h2 : (processMessage emojiCnt msg g).hour =
      secondOfDay (msg.date + jerusalemOffsetAtUtc msg.date) / 3600 := rfl
  have h3 : (processMessage emojiCnt msg g).day_of_week =
      pyWeekday (epochDay (msg.date + jerusalemOffsetAtUtc msg.date)) := rfl
  have h4 : (processMessage emojiCnt msg g).month =
      (civilFromDays (epochDay (msg.date + jerusalemOffsetAtUtc msg.date))).2.1 := rfl
  rw [h1, h2, h3, h4, hd]
  refine ⟨?_, ?_, ?_, ?_⟩ <;> decide

/-- Witness for the derived-fields theorem at the concrete sample message. -/
theorem derived_fields_oct7_witness :
    (processMessage E0 sampleMsg "g").local_date = "2023-10-07 09:30:00+0300" :=
  (derived_fields_oct7 E0 sampleMsg "g" rfl).1

/-- C9: an unrecognized media payload takes the fallback arm and only it:
dispatch is total (never raises), media_kind is the payload's own type name
and the attribute map is exactly the raw_object entry holding its non-empty
string form; lifted through `_process_message`, the normalized record
carries the same media fields. -/
theorem fallback_media_safety (emojiCnt : String → Nat) (g name s : String)
    (msg : RawMessage) (hs : s ≠ "") (hm : msg.media = some (.other name s)) :
    processMessageWithMediaTypes (some (.other name s)) =
      (some name, [("raw_object", JValue.s s)])
  ∧ (processMessage emojiCnt msg g).media_type = some name
  ∧ (processMessage emojiCnt msg g).media_attributes =
      some [("raw_object", JValue.s s)]
  ∧ s ≠ "" := by
  refine ⟨rfl, ?_, ?_, hs⟩ <;>
    simp [processMessage, hm, processMessageWithMediaTypes, RawMedia.pyTypeName,
      RawMedia.strForm]

/-- Witness for the fallback-safety theorem at a concrete contact payload. -/
theorem fallback_media_safety_witness :
    processMessageWithMediaTypes (some (.other "MessageMediaContact" "MessageMediaContact(phone)")) =
      (some "MessageMediaContact", [("raw_object", JValue.s "MessageMediaContact(phone)")]) :=
  (fallback_media_safety E0 "g" "MessageMediaContact" "MessageMediaContact(phone)"
    { sampleMsg with media := some (.other "MessageMediaContact" "MessageMediaContact(phone)") }
    (by decide) rfl).1

/-- C1 (counterexample): re-inserting the sample record into a table that
already holds its composite key makes `insert_messages` raise (the INSERT
carries no conflict policy), aborting the batch instead of ignoring or
replacing. -/
theorem insert_reinsert_raises :
    insertMessages [sampleMd] 1000 [rowParams sampleMd] =
      .error "UNIQUE constraint failed" := by
  rfl

/-- C7 (counterexample): a record whose media-attributes map is a real
empty map and the same record with the attribute absent are serialized to
identical rows (both stored as SQL NULL), although the records differ —
absence and the empty map are not stored distinguishably. -/
theorem empty_map_stored_as_null :
    rowParams mdEmptyAttrs = rowParams mdAbsentAttrs
  ∧ mdEmptyAttrs.media_attributes ≠ mdAbsentAttrs.media_attributes
  ∧ (rowParams mdEmptyAttrs).media_attributes = none := by
  refine ⟨rfl, ?_, rfl⟩
  simp [mdEmptyAttrs, mdAbsentAttrs]

/-- C7 (amended): every absent (None) structured attribute — forwarded_from,
media_attributes, entities, reactions — is stored as SQL NULL and a
serialized attribute is never the empty string; but Python truthiness also
sends a real empty map (or list) to NULL, so absence and the empty map are
NOT stored distinguishably. -/
theorem structured_absence_storage (m : MessageData) :
    ((rowParams m).forwarded_from = none ↔
      m.forwarded_from = none ∨ m.forwarded_from = some [])
  ∧ ((rowParams m).media_attributes = none ↔
      m.media_attributes = none ∨ m.media_attributes = some [])
  ∧ ((rowParams m).entities = none ↔ m.entities = none ∨ m.entities = some [])
  ∧ ((rowParams m).reactions = none ↔ m.reactions = none ∨ m.reactions = some [])
  ∧ (∀ s, (rowParams m).forwarded_from = some s → s ≠ "")
  ∧ (∀ s, (rowParams m).media_attributes = some s → s ≠ "")
  ∧ (∀ s, (rowParams m).entities = some s → s ≠ "")
  ∧ (∀ s, (rowParams m).reactions = some s → s ≠ "") := by
  refine ⟨dictParam_eq_none _, dictParam_eq_none _, listParam_eq_none _,
    listParam_eq_none _, ?_, ?_, ?_, ?_⟩
  · exact fun s h => dictParam_ne_empty _ s h
  · exact fun s h => dictParam_ne_empty _ s h
  · exact fun s h => listParam_ne_empty _ s h
  · exact fun s h => listParam_ne_empty _ s h

/-- Witness for the structured-absence theorem at the sample record. -/
theorem structured_absence_storage_witness :
    (rowParams mdEmptyAttrs).media_attributes = none :=
  (structured_absence_storage mdEmptyAttrs).2.1.mpr (Or.inr rfl)

/-- The key-collision test survives appending rows to the table. -/
theorem keyClash_append (r : Row) (t u : Table) (h : keyClash r t = true) :
    keyClash r (t ++ u) = true := by
  simp only [keyClash, List.any_append, Bool.or_eq_true]
  exact Or.inl h

/-- A successful single-row insert appends the row and certifies that its
key was fresh. -/
theorem sqliteInsert_ok {t : Table} {r : Row} {t' : Table}
    (h : sqliteInsert t r = .ok t') : t' = t ++ [r] ∧ keyClash r t = false := by
  unfold sqliteInsert at h
  cases hc : keyClash r t with
  | true => rw [hc] at h; simp at h
  | false => rw [hc] at h; simp at h; exact ⟨h.symm, rfl⟩

/-- A successful executemany appends exactly its rows, in order. -/
theorem executemany_ok (rs : List Row) : ∀ (t t' : Table),
    executemanyInsert t rs = .ok t' → t' = t ++ rs := by
  induction rs with
  | nil =>
    intro t t' h
    simp [executemanyInsert] at h
    simp [h]
  | cons r rest ih =>
    intro t t' h
    unfold executemanyInsert at h
    cases hins : sqliteInsert t r with
    | error e => rw [hins] at h; cases h
    | ok t1 =>
      rw [hins] at h
      obtain ⟨ht1, _⟩ := sqliteInsert_ok hins
      subst ht1
      have := ih _ _ h
      simp [this]

/-- A row whose key already clashes with the table makes executemany fail. -/
theorem executemany_clash (rs : List Row) : ∀ (t : Table) (r : Row),
    r ∈ rs → keyClash r t = true → ∃ e, executemanyInsert t rs = .error e := by
  induction rs with
  | nil => intro t r hr; cases hr
  | cons r0 rest ih =>
    intro t r hr hc
    rcases List.mem_cons.mp hr with he | hm
    · subst he
      refine ⟨"UNIQUE constraint failed", ?_⟩
      unfold executemanyInsert sqliteInsert
      simp [hc]
    · cases hins : sqliteInsert t r0 with
      | error e => exact ⟨e, by unfold executemanyInsert; simp [hins]⟩
      | ok t1 =>
        obtain ⟨ht1, _⟩ := sqliteInsert_ok hins
        obtain ⟨e, he⟩ := ih t1 r hm (by rw [ht1]; exact keyClash_append r t [r0] hc)
        exact ⟨e, by unfold executemanyInsert; simp [hins, he]⟩

/-- A successful single-row insert preserves key uniqueness. -/
theorem sqliteInsert_keysOk {t : Table} {r : Row} {t' : Table}
    (h : sqliteInsert t r = .ok t') (hk : keysOk t) : keysOk t' := by
  obtain ⟨ht, hc⟩ := sqliteInsert_ok h
  subst ht
  unfold keysOk at hk ⊢
  rw [List.pairwise_append]
  refine ⟨hk, List.pairwise_singleton _ _, ?_⟩
  intro a ha b hb
  rw [List.mem_singleton] at hb
  subst hb
  unfold keyClash at hc
  rw [List.any_eq_false] at hc
  have hne := hc a ha
  simp only [Bool.and_eq_true, decide_eq_true_eq, not_and] at hne
  by_cases hg : a.group_name = b.group_name
  · exact Or.inr (hne hg)
  · exact Or.inl hg

/-- A successful executemany preserves key uniqueness. -/
theorem executemany_keysOk (rs : List Row) : ∀ (t t' : Table),
    executemanyInsert t rs = .ok t' → keysOk t → keysOk t' := by
  induction rs with
  | nil =>
    intro t t' h hk
    simp [executemanyInsert] at h
    rwa [← h]
  | cons r rest ih =>
    intro t t' h hk
    unfold executemanyInsert at h
    cases hins : sqliteInsert t r with
    | error e => rw [hins] at h; cases h
    | ok t1 =>
      rw [hins] at h
      exact ih _ _ h (sqliteInsert_keysOk hins hk)

/-- Flattening the chunking accumulator recovers the input list. -/
theorem chunksGo_flatten (n : Nat) : ∀ (l cur : List α),
    (chunksGo n l cur).flatten = cur ++ l := by
  intro l
  induction l with
  | nil =>
    intro cur
    cases cur <;> simp [chunksGo]
  | cons x xs ih =>
    intro cur
    by_cases hn : n ≤ cur.length + 1
    · simp [chunksGo, hn, ih]
    · simp [chunksGo, hn, ih]

/-- Flattening the chunks recovers the input list. -/
theorem chunks_flatten (n : Nat) (l : List α) : (chunks n l).flatten = l := by
  simpa using chunksGo_flatten n l []

/-- A successful chunked insert appends exactly the chunks' rows and
preserves key uniqueness. -/
theorem insertChunks_ok (cs : List (List Row)) : ∀ (t t' : Table),
    insertChunks t cs = .ok t' → t' = t ++ cs.flatten ∧ (keysOk t → keysOk t') := by
  induction cs with
  | nil =>
    intro t t' h
    simp [insertChunks] at h
    simp [h]
  | cons c rest ih =>
    intro t t' h
    unfold insertChunks at h
    cases hex : executemanyInsert t c with
    | error e => rw [hex] at h; cases h
    | ok t1 =>
      rw [hex] at h
      obtain ⟨ht2, hku⟩ := ih t1 t' h
      have ht1 := executemany_ok c t t1 hex
      subst ht1
      constructor
      · simp [ht2]
      · intro hk
        exact hku (executemany_keysOk c t _ hex hk)

/-- A row clashing with the table makes the chunked insert fail. -/
theorem insertChunks_clash (cs : List (List Row)) : ∀ (t : Table) (r : Row),
    (∃ c ∈ cs, r ∈ c) → keyClash r t = true → ∃ e, insertChunks t cs = .error e := by
  induction cs with
  | nil => rintro t r ⟨c, hc, _⟩ _; cases hc
  | cons c0 rest ih =>
    rintro t r ⟨c, hcmem, hrc⟩ hclash
    rcases List.mem_cons.mp hcmem with he | hm
    · obtain ⟨e, hee⟩ := executemany_clash c0 t r (he ▸ hrc) hclash
      exact ⟨e, by unfold insertChunks; simp [hee]⟩
    · cases hex : executemanyInsert t c0 with
      | error e => exact ⟨e, by unfold insertChunks; simp [hex]⟩
      | ok t1 =>
        have ht1 := executemany_ok c0 t t1 hex
        obtain ⟨e, hee⟩ := ih t1 r ⟨c, hm, hrc⟩
          (by rw [ht1]; exact keyClash_append r t c0 hclash)
        exact ⟨e, by unfold insertChunks; simp [hex, hee]⟩

/-- C1 (amended): `insert_messages` never creates a duplicate row — on
success the table gains exactly the new rows and composite-key uniqueness
is preserved — but a key collision is NOT resolved by an ignore/replace
policy: the plain INSERT makes the whole call raise, aborting the batch. -/
theorem insert_conflict_policy (msgs : List MessageData) (bs : Nat) (t : Table) :
    ((∃ m ∈ msgs, keyClash (rowParams m) t = true) →
      ∃ e, insertMessages msgs bs t = .error e)
  ∧ (∀ t', insertMessages msgs bs t = .ok t' →
      t' = t ++ msgs.map rowParams ∧ (keysOk t → keysOk t')) := by
  constructor
  · rintro ⟨m, hm, hc⟩
    apply insertChunks_clash
    · have hmem : rowParams m ∈ msgs.map rowParams := List.mem_map_of_mem _ hm
      rw [← chunks_flatten bs (msgs.map rowParams)] at hmem
      exact List.mem_flatten.mp hmem
    · exact hc
  · intro t' h
    have := insertChunks_ok (chunks bs (msgs.map rowParams)) t t' h
    rwa [chunks_flatten] at this

/-- Witness for the conflict-policy theorem: re-inserting the sample record
over its own row yields an error. -/
theorem insert_conflict_policy_witness :
    ∃ e, insertMessages [sampleMd] 1000 [rowParams sampleMd] = .error e :=
  (insert_conflict_policy [sampleMd] 1000 [rowParams sampleMd]).1
    ⟨sampleMd, List.mem_singleton.mpr rfl, by decide⟩

/-- C3 (counterexample): an authorization failure escapes
`extract_messages`: `connect_client` is awaited outside the try block
(line 369), so its `Exception("Authentication failed")` propagates to the
caller instead of being caught and turned into an empty list. -/
theorem auth_failure_propagates :
    extractMessages E0 noAuthClient "g" startNaive endNaive [] =
      .raised "Authentication failed" := rfl

/-- C3 (amended): every failure arising inside the per-source try block —
an unresolvable source, or any non-rate-limit exception while fetching or
storing — is caught and yields an empty returned list, so once the
connection step has succeeded no exception escapes `extract_messages`; an
authorization failure, however, occurs before the try block and is not
covered by this containment. -/
theorem nonauth_failures_contained (emojiCnt : String → Nat) (client : Client)
    (g : String) (s e : PyDateTime) (db : Table)
    (hc : client.connectOk = true) :
    (∀ err, extractMessages emojiCnt client g s e db ≠ .raised err)
  ∧ (client.resolveOk = false →
      extractMessages emojiCnt client g s e db = .returned [] db [])
  ∧ (client.resolveOk = true → ∀ db' log err,
      extractLoop emojiCnt g (toUtcInstant s) (toUtcInstant e) 0 [] db []
          client.responses = .failed db' log err →
      extractMessages emojiCnt client g s e db = .returned [] db' log) := by
  refine ⟨?_, ?_, ?_⟩
  · intro err h
    unfold extractMessages at h
    rw [hc] at h
    cases hr : client.resolveOk with
    | false => rw [hr] at h; simp at h
    | true =>
      rw [hr] at h
      simp only [if_true] at h
      rcases hl : extractLoop emojiCnt g (toUtcInstant s) (toUtcInstant e) 0 [] db []
          client.responses with _ | _ | _ <;> rw [hl] at h <;> simp at h
  · intro hr
    unfold extractMessages
    rw [hc, hr]
    simp
  · intro hr db' log err hl
    unfold extractMessages
    rw [hc, hr, hl]
    rfl

/-- Witness for the containment theorem: an unresolvable source yields an
empty list rather than an exception. -/
theorem nonauth_failures_contained_witness :
    extractMessages E0 badSourceClient "g" startNaive endNaive [] =
      .returned [] [] [] :=
  (nonauth_failures_contained E0 badSourceClient "g" startNaive endNaive []
    rfl).2.1 rfl

set_option maxRecDepth 100000 in
set_option maxHeartbeats 1000000 in
/-- C10: the week_of_year field is computed by the fixed Sunday-start `%U`
rule: for every day of a year whose January 1st falls on Sunday-based
weekday jan1w, the value agrees with the convention "days before the first
Sunday are week 0, each week starts on a Sunday", never exceeds 53, and the
computation (`weekU`, used by `weekOfYearOfWall` in the normalizer) takes
no locale input. -/
theorem week_of_year_convention :
    (∀ yday : Nat, yday < 366 → ∀ jan1w : Nat, jan1w < 7 →
      weekU yday ((jan1w + yday) % 7) = weekUSundaySpec jan1w yday
      ∧ weekU yday ((jan1w + yday) % 7) ≤ 53)
  ∧ (∀ wall : Int, weekOfYearOfWall wall =
      Int.ofNat (weekU (dayOfYear0 (epochDay wall)).toNat
        (weekdaySun0 (epochDay wall)).toNat)) := by
  constructor
  · decide
  · intro wall; rfl

/-- Witness for the week-numbering theorem at 2023-10-07 (day-of-year 279,
a Saturday in a year starting on a Sunday): week 40 under both readings. -/
theorem week_of_year_convention_witness :
    weekU 279 ((0 + 279) % 7) = weekUSundaySpec 0 279
    ∧ weekU 279 ((0 + 279) % 7) ≤ 53 :=
  week_of_year_convention.1 279 (by decide) 0 (by decide)

/-- Invariant of the pagination loop: a normally-terminated run returns its
initial accumulator extended by normalized in-window messages only, and
every in-window message of every page fetched during the run appears in the
returned list. -/
theorem extractLoop_window (emojiCnt : String → Nat) (g : String) (sU eU : Int) :
    ∀ (rs : List FetchResult) (off : Int) (acc : List MessageData) (db : Table)
      (log : List Event) (msgs : List MessageData) (db' : Table) (log' : List Event),
      extractLoop emojiCnt g sU eU off acc db log rs = .finished msgs db' log' →
      acc <+: msgs
      ∧ (∀ x ∈ msgs, x ∈ acc ∨
          ∃ m, inWindow sU eU m = true ∧ x = processMessage emojiCnt m g)
      ∧ (∀ pg, Event.gotPage pg ∈ log' → Event.gotPage pg ∈ log ∨
          ∀ m ∈ pg, inWindow sU eU m = true → processMessage emojiCnt m g ∈ msgs) := by
  intro rs
  induction rs with
  | nil =>
    intro off acc db log msgs db' log' h
    simp [extractLoop] at h
  | cons r rest ih =>
    intro off acc db log msgs db' log' h
    cases r with
    | flood s =>
      simp only [extractLoop] at h
      obtain ⟨hpre, hsound, hcomp⟩ := ih _ _ _ _ _ _ _ h
      refine ⟨hpre, hsound, ?_⟩
      intro pg hpg
      rcases hcomp pg hpg with hl | hall
      · simp only [List.mem_append, List.mem_singleton] at hl
        rcases hl with (hl | hl) | hl
        · exact Or.inl hl
        · cases hl
        · cases hl
      · exact Or.inr hall
    | fatal e =>
      simp [extractLoop] at h
    | pages pg =>
      cases pg with
      | nil =>
        simp only [extractLoop, LoopOutcome.finished.injEq] at h
        obtain ⟨hmsgs, hdb, hlog⟩ := h
        subst hmsgs; subst hdb; subst hlog
        refine ⟨List.prefix_refl acc, fun x hx => Or.inl hx, ?_⟩
        intro pg hpg
        simp only [List.mem_append, List.mem_singleton] at hpg
        rcases hpg with hl | hl
        · exact Or.inl hl
        · cases hl
      | cons m0 ms =>
        simp only [extractLoop] at h
        rcases hins : insertIfAny emojiCnt g sU eU (m0 :: ms) db with e | db2
        · rw [hins] at h; cases h
        · rw [hins] at h
          dsimp only at h
          by_cases hlt : ((m0 :: ms).getLast (List.cons_ne_nil m0 ms)).date < sU
          · rw [if_pos hlt] at h
            obtain ⟨hmsgs, hdb, hlog⟩ := LoopOutcome.finished.inj h
            subst hmsgs; subst hlog
            refine ⟨List.prefix_append acc _, ?_, ?_⟩
            · intro x hx
              rcases List.mem_append.mp hx with hx | hx
              · exact Or.inl hx
              · obtain ⟨m, hmf, hmx⟩ := List.mem_map.mp hx
                obtain ⟨_, hmw⟩ := List.mem_filter.mp hmf
                exact Or.inr ⟨m, hmw, hmx.symm⟩
            · intro pg hpg
              simp only [List.mem_append, List.mem_singleton] at hpg
              rcases hpg with (hl | hl) | hl
              · exact Or.inl hl
              · cases hl
              · have hpg' := Event.gotPage.inj hl
                subst hpg'
                refine Or.inr ?_
                intro m hm hw
                refine List.mem_append.mpr (Or.inr ?_)
                exact List.mem_map_of_mem _ (List.mem_filter.mpr ⟨hm, hw⟩)
          · rw [if_neg hlt] at h
            obtain ⟨hpre, hsound, hcomp⟩ := ih _ _ _ _ _ _ _ h
            have hpp : acc ++ pageProcessed emojiCnt g sU eU (m0 :: ms) <+: msgs := hpre
            refine ⟨(List.prefix_append acc _).trans hpp, ?_, ?_⟩
            · intro x hx
              rcases hsound x hx with hx' | hx'
              · rcases List.mem_append.mp hx' with hx'' | hx''
                · exact Or.inl hx''
                · obtain ⟨m, hmf, hmx⟩ := List.mem_map.mp hx''
                  obtain ⟨_, hmw⟩ := List.mem_filter.mp hmf
                  exact Or.inr ⟨m, hmw, hmx.symm⟩
              · exact Or.inr hx'
            · intro pg hpg
              rcases hcomp pg hpg with hl | hall
              · simp only [List.mem_append, List.mem_singleton] at hl
                rcases hl with ((hl | hl) | hl) | hl
                · exact Or.inl hl
                · cases hl
                · have hpg' := Event.gotPage.inj hl
                  subst hpg'
                  refine Or.inr ?_
                  intro m hm hw
                  have hmem : processMessage emojiCnt m g ∈
                      acc ++ pageProcessed emojiCnt g sU eU (m0 :: ms) :=
                    List.mem_append.mpr
                      (Or.inr (List.mem_map_of_mem _ (List.mem_filter.mpr ⟨hm, hw⟩)))
                  exact hpp.subset hmem
                · cases hl
              · exact Or.inr hall

/-- C4: window correctness of a normally-terminated per-source run: both
bounds are unified to UTC instants (a naive bound is first localized to
Asia/Jerusalem, never silently read as UTC), and a fetched message is in
the returned output exactly when start <= t <= end with both ends
inclusive — every returned record comes from an in-window message and
every in-window message of every fetched page is returned. -/
theorem extract_window_correctness (emojiCnt : String → Nat) (client : Client)
    (g : String) (startD endD : PyDateTime) (db : Table)
    (msgs : List MessageData) (db' : Table) (log : List Event)
    (hc : client.connectOk = true) (hr : client.resolveOk = true)
    (hfin : extractLoop emojiCnt g (toUtcInstant startD) (toUtcInstant endD) 0 [] db []
        client.responses = .finished msgs db' log) :
    extractMessages emojiCnt client g startD endD db = .returned msgs db' log
  ∧ (∀ x ∈ msgs, ∃ m, toUtcInstant startD ≤ m.date ∧ m.date ≤ toUtcInstant endD ∧
      x = processMessage emojiCnt m g)
  ∧ (∀ pg, Event.gotPage pg ∈ log → ∀ m ∈ pg,
      toUtcInstant startD ≤ m.date → m.date ≤ toUtcInstant endD →
      processMessage emojiCnt m g ∈ msgs)
  ∧ (startD.utcoffset = none →
      toUtcInstant startD = startD.wall - jerusalemOffsetAtWall startD.wall)
  ∧ (endD.utcoffset = none →
      toUtcInstant endD = endD.wall - jerusalemOffsetAtWall endD.wall) := by
  obtain ⟨hpre, hsound, hcomp⟩ :=
    extractLoop_window emojiCnt g (toUtcInstant startD) (toUtcInstant endD)
      client.responses 0 [] db [] msgs db' log hfin
  refine ⟨?_, ?_, ?_, ?_, ?_⟩
  · unfold extractMessages
    rw [hc, hr, hfin]
    rfl
  · intro x hx
    rcases hsound x hx with hin | ⟨m, hw, hxm⟩
    · cases hin
    · unfold inWindow at hw
      simp only [Bool.and_eq_true, decide_eq_true_eq] at hw
      exact ⟨m, hw.1, hw.2, hxm⟩
  · intro pg hpg m hm h1 h2
    rcases hcomp pg hpg with hl | hall
    · cases hl
    · refine hall m hm ?_
      unfold inWindow
      simp [h1, h2]
  · intro h0
    unfold toUtcInstant
    rw [h0]
  · intro h0
    unfold toUtcInstant
    rw [h0]

/-- Witness for window correctness: the healthy sample client's run returns
exactly the in-window sample record. -/
theorem extract_window_correctness_witness :
    extractMessages E0 okClient "g" startNaive endNaive [] =
      .returned [sampleMd] [rowParams sampleMd]
        [.request 0, .gotPage [sampleMsg], .sleepDelay, .request 10] :=
  (extract_window_correctness E0 okClient "g" startNaive endNaive []
    [sampleMd] [rowParams sampleMd]
    [.request 0, .gotPage [sampleMsg], .sleepDelay, .request 10]
    rfl rfl (by rfl)).1

/-- C5: the pagination loop stops exactly on (a) an empty fetched page or
(b) a page whose oldest (last, pages being newest-first) message is
strictly older than the start bound; in case (b) the page is still
processed — its in-window records are appended and stored — the outcome is
normal termination (not an error) and no request for a further page is
issued: the remaining script is never consulted and the final log extends
the current one by this request only; in every other successful-page case
the loop goes on to the next response with the advanced cursor. -/
theorem pagination_termination (emojiCnt : String → Nat) (g : String)
    (sU eU off : Int) (acc : List MessageData) (db : Table) (log : List Event)
    (pg : List RawMessage) (rest : List FetchResult) :
    (pg = [] → extractLoop emojiCnt g sU eU off acc db log (.pages pg :: rest) =
        .finished acc db (log ++ [.request off]))
  ∧ (∀ (h : pg ≠ []) (db' : Table),
      insertIfAny emojiCnt g sU eU pg db = .ok db' →
      (pg.getLast h).date < sU →
      extractLoop emojiCnt g sU eU off acc db log (.pages pg :: rest) =
        .finished (acc ++ pageProcessed emojiCnt g sU eU pg) db'
          (log ++ [.request off, .gotPage pg]))
  ∧ (∀ (h : pg ≠ []) (db' : Table),
      insertIfAny emojiCnt g sU eU pg db = .ok db' →
      ¬ (pg.getLast h).date < sU →
      extractLoop emojiCnt g sU eU off acc db log (.pages pg :: rest) =
        extractLoop emojiCnt g sU eU (pg.getLast h).id
          (acc ++ pageProcessed emojiCnt g sU eU pg) db'
          (log ++ [.request off, .gotPage pg, .sleepDelay]) rest) := by
  refine ⟨?_, ?_, ?_⟩
  · intro hpg
    subst hpg
    simp [extractLoop]
  · intro h db' hins hold
    cases pg with
    | nil => exact absurd rfl h
    | cons m0 ms =>
      simp only [extractLoop]
      rw [hins]
      dsimp only
      rw [if_pos hold]
      simp [List.append_assoc]
  · intro h db' hins hold
    cases pg with
    | nil => exact absurd rfl h
    | cons m0 ms =>
      simp only [extractLoop]
      rw [hins]
      dsimp only
      rw [if_neg hold]
      simp [List.append_assoc]

/-- Witness for termination: a page older than the window start finishes
the run without touching the remaining script. -/
theorem pagination_termination_witness :
    extractLoop E0 "g" (toUtcInstant startNaive) (toUtcInstant endNaive) 0 [] [] []
        [.pages [sampleOldMsg], .pages [sampleMsg]] =
      .finished ([] ++ pageProcessed E0 "g" (toUtcInstant startNaive)
          (toUtcInstant endNaive) [sampleOldMsg]) []
        ([] ++ [.request 0, .gotPage [sampleOldMsg]]) :=
  (pagination_termination E0 "g" (toUtcInstant startNaive) (toUtcInstant endNaive)
    0 [] [] [] [sampleOldMsg] [.pages [sampleMsg]]).2.1
    (by simp) [] (by rfl) (by decide)

end Oct7
